import Mathlib

/-!
Verification development for the Multimodal-gemini ingestion pipeline.

The repository is a Deno/TypeScript service.  Its core (file-locator
parsing, fetch-and-upload of external files to the Gemini File API,
activation polling, and assembly of role-tagged content blocks) is
embedded below as executable Lean definitions, translated function by
function from `src/utils/file.utils.ts` and `src/services/gemini.service.ts`
(the service file contains two revisions; where they differ the later
revision, the one that waits for file activation, is embedded, and the
differences relevant to a claim are noted at the claim).

External effects are modelled as explicit oracles:
JavaScript `JSON.parse` as a function `String → Option JsValue`
(`none` models a thrown `SyntaxError`), the network / Gemini File API as
environment records of functions, and each polling loop over an oracle
`Nat → GetAttempt` giving the outcome of the i-th status retrieval.
JavaScript string primitives (`trim`, `startsWith`, `includes`,
`split`) are implemented structurally on `List Char` so that every
definition evaluates by `decide`/`rfl`.
-/

/-- Characters removed by JavaScript `String.prototype.trim` (modelled by
whitespace as in `Char.isWhitespace`). -/
def jsTrimChars (cs : List Char) : List Char :=
  (((cs.dropWhile Char.isWhitespace).reverse).dropWhile Char.isWhitespace).reverse

/-- JavaScript `s.trim()`. -/
def jsTrim (s : String) : String := ⟨jsTrimChars s.data⟩

/-- List-level check that the first list is an initial segment of the second. -/
def chStarts : List Char → List Char → Bool
  | [], _ => true
  | _ :: _, [] => false
  | a :: as, b :: bs => if a = b then chStarts as bs else false

/-- JavaScript `s.startsWith(p)`. -/
def jsStartsWith (s p : String) : Bool := chStarts p.data s.data

/-- List-level substring occurrence check. -/
def chSub (p : List Char) : List Char → Bool
  | [] => chStarts p []
  | c :: rest => chStarts p (c :: rest) || chSub p rest

/-- JavaScript `s.includes(p)`. -/
def jsIncludes (s p : String) : Bool := chSub p.data s.data

/-- List-level split on a single separator character. -/
def chSplit (sep : Char) : List Char → List Char → List (List Char)
  | [], acc => [acc.reverse]
  | c :: cs, acc =>
    if c = sep then acc.reverse :: chSplit sep cs [] else chSplit sep cs (c :: acc)

/-- JavaScript `s.split(sep)` for a one-character separator. -/
def jsSplitChar (s : String) (sep : Char) : List String :=
  (chSplit sep s.data []).map (fun l => ⟨l⟩)

/-- JavaScript `s.includes(c)` for a single character. -/
def jsContainsChar (s : String) (c : Char) : Bool :=
  s.data.any (fun d => d = c)

/-- A JavaScript (JSON) runtime value, as produced by `JSON.parse`. -/
inductive JsValue where
  | str : String → JsValue
  | num : Int → JsValue
  | bool : Bool → JsValue
  | null : JsValue
  | arr : List JsValue → JsValue
  | obj : List (String × JsValue) → JsValue

/-- The `JSON.parse` builtin, as an oracle: `none` models a thrown
`SyntaxError`, `some v` a successful parse to value `v`. -/
abbrev JsonParse := String → Option JsValue

/-- Runtime value of the request field `fileURL : string | string[] | undefined`. -/
inductive FileURLInput where
  | undef : FileURLInput
  | str : String → FileURLInput
  | arr : List JsValue → FileURLInput

/-- JavaScript filter used by `parseFileURLs`:
`typeof url === "string" && url.trim()`. -/
def keepNonBlankString (v : JsValue) : Option String :=
  match v with
  | JsValue.str s => if jsTrim s ≠ "" then some s else none
  | _ => none

/-- `parseFileURLs` from `src/utils/file.utils.ts` (lines 136-190): accepts a
native array, a JSON-encoded array in a string, a comma-separated string, or
a single literal locator, with exactly that fallback order. -/
def parseFileURLs (jsonParse : JsonParse) : FileURLInput → List String
  | FileURLInput.arr xs => xs.filterMap keepNonBlankString
  | FileURLInput.str s =>
    if jsTrim s ≠ "" then
      match jsonParse s with
      | some (JsValue.arr xs) => xs.filterMap keepNonBlankString
      | some _ => [jsTrim s]
      | none =>
        if jsContainsChar s ',' then
          ((jsSplitChar s ',').map jsTrim).filter (fun u => u ≠ "")
        else [jsTrim s]
    else []
  | FileURLInput.undef => []

/-- Runtime value of the history field `filedata : string | FileData[] | undefined`. -/
inductive FiledataInput where
  | undef : FiledataInput
  | str : String → FiledataInput
  | arr : List JsValue → FiledataInput

/-- `parseFileData` from `src/utils/file.utils.ts` (lines 101-133).  An empty
or blank string, an unparsable string, and a missing value all yield the
empty array; a successful `JSON.parse` yields whatever value it produced
(the caller re-checks `Array.isArray`).  The function is total: malformed
embedded file data never throws. -/
def parseFileData (jsonParse : JsonParse) : FiledataInput → JsValue
  | FiledataInput.str s =>
    if jsTrim s = "" then JsValue.arr []
    else
      match jsonParse s with
      | some v => v
      | none => JsValue.arr []
  | FiledataInput.arr xs => JsValue.arr xs
  | FiledataInput.undef => JsValue.arr []

/-- Gemini File API processing state of an uploaded file. -/
inductive FileState where
  | processing : FileState
  | active : FileState
  | failed : FileState
  deriving DecidableEq

/-- A file object as returned by the Gemini File API. -/
structure PolledFile where
  name : String
  uri : String
  mimeType : String
  state : FileState
  deriving DecidableEq

/-- Outcome of one status-retrieval call (`ai.files.get` / `ai.getFile`):
either a file object or a thrown error carrying its message. -/
inductive GetAttempt where
  | got : PolledFile → GetAttempt
  | threw : String → GetAttempt
  deriving DecidableEq

/-- Failure modes of `fetchAndUploadFile`. -/
inductive FetchUploadError where
  | fetchThrew : String → FetchUploadError
  | fetchNotOk : Nat → FetchUploadError
  | uploadInvalidResponse : FetchUploadError
  | getFileThrew : String → FetchUploadError
  | fileFailed : String → FetchUploadError
  | activationTimedOut : String → FetchUploadError
  deriving DecidableEq

/-- `MAX_RETRIES` from `src/utils/file.utils.ts` line 56. -/
def MAX_RETRIES : Nat := 20

/-- `POLLING_INTERVAL_MS` from `src/utils/file.utils.ts` line 57. -/
def POLLING_INTERVAL_MS : Nat := 2000

/-- The polling loop of `fetchAndUploadFile` (`src/utils/file.utils.ts`
lines 59-86).  `getF i` is the outcome of the status retrieval on loop
iteration `i`; the result is paired with the number of status-retrieval
calls actually performed.  A thrown status-retrieval error is not caught
inside this loop, so it aborts the whole upload; the `FAILED` state throws
immediately; exhausting the budget while still processing yields the
timeout error built from the uploaded file's name. -/
def pollFileLoop (getF : Nat → GetAttempt) (uploadedName : String) :
    Nat → Nat → (Except FetchUploadError (PolledFile × String)) × Nat
  | _, 0 => (Except.error (FetchUploadError.activationTimedOut uploadedName), 0)
  | i, fuel + 1 =>
    match getF i with
    | GetAttempt.threw msg => (Except.error (FetchUploadError.getFileThrew msg), 1)
    | GetAttempt.got f =>
      if f.state = FileState.active then (Except.ok (f, f.mimeType), 1)
      else if f.state = FileState.failed then
        (Except.error (FetchUploadError.fileFailed f.name), 1)
      else
        let r := pollFileLoop getF uploadedName (i + 1) fuel
        (r.1, r.2 + 1)

/-- Outcome of the `fetch(url)` call: thrown transport error, or a response
with `ok`, `status` and the `Content-Type` header (`none` = absent). -/
structure FetchResponse where
  ok : Bool
  status : Nat
  contentType : Option String

/-- The external collaborators of `fetchAndUploadFile`: HTTP fetch, the
Gemini upload call (returning `uploadResponse.file`, `none` when the
response lacks a `file` object), and the status-retrieval oracle for a
given file name. -/
structure FetchEnv where
  fetch : String → Except String FetchResponse
  upload : String → String → Option PolledFile
  getFile : String → Nat → GetAttempt

/-- `fetchAndUploadFile` from `src/utils/file.utils.ts` (lines 17-93):
fetch the bytes, derive the MIME type (defaulting to
`application/octet-stream` for an absent or empty header), upload, check
the response shape, then poll with budget `MAX_RETRIES`. -/
def fetchAndUploadFile (env : FetchEnv) (url : String) :
    Except FetchUploadError (PolledFile × String) :=
  match env.fetch url with
  | Except.error msg => Except.error (FetchUploadError.fetchThrew msg)
  | Except.ok resp =>
    if !resp.ok then Except.error (FetchUploadError.fetchNotOk resp.status)
    else
      let mimeType :=
        match resp.contentType with
        | some ct => if ct = "" then "application/octet-stream" else ct
        | none => "application/octet-stream"
      match env.upload url mimeType with
      | none => Except.error FetchUploadError.uploadInvalidResponse
      | some fileToPoll =>
        (pollFileLoop (env.getFile fileToPoll.name) fileToPoll.name 0 MAX_RETRIES).1

/-- `extractFileIdFromUri` (`src/services/gemini.service.ts`, later revision):
the regex `/\/files\/([^/]+)$/` matches when the character list ends in
`"/files/"` followed by a nonempty slash-free segment; the segment is the
extracted id. -/
def extractIdChars : List Char → Option (List Char)
  | [] => none
  | c :: rest =>
    if chStarts ['/', 'f', 'i', 'l', 'e', 's', '/'] (c :: rest) then
      let idPart := (c :: rest).drop 7
      if idPart ≠ [] ∧ idPart.all (fun d => d ≠ '/') then some idPart
      else extractIdChars rest
    else extractIdChars rest

/-- String-level wrapper of `extractIdChars`. -/
def extractFileIdFromUri (uri : String) : Option String :=
  (extractIdChars uri.data).map (fun cs => ⟨cs⟩)

/-- Default `maxRetries` of `waitForFileActive` (service, later revision). -/
def maxRetriesDefault : Nat := 20

/-- Default `retryDelayMs` of `waitForFileActive` (service, later revision). -/
def retryDelayMsDefault : Nat := 3000

/-- The check `error.message.includes('404') || error.message.includes('not found')`
inside the catch of `waitForFileActive`. -/
def escalatesWaitError (msg : String) : Bool :=
  jsIncludes msg "404" || jsIncludes msg "not found"

/-- The message of the error thrown when a poll observes state `FAILED`
inside `waitForFileActive`. -/
def failedStateMsg (fileId : String) : String :=
  "文件 " ++ fileId ++ " 处理失败，状态为 FAILED。"

/-- Result of `waitForFileActive`: normal return, the escalated not-found
error, the timeout error after the budget is exhausted, or the error thrown
when no file id can be extracted from the URI. -/
inductive WaitResult where
  | ok : WaitResult
  | notFoundError : WaitResult
  | timedOutError : WaitResult
  | badUriError : WaitResult
  deriving DecidableEq

/-- The polling loop of `waitForFileActive` (service, later revision,
lines 320-344 of the concatenated source).  Each iteration retrieves the
file status inside a `try`: `ACTIVE` returns; `FAILED` throws an error that
is caught by the loop's own catch; a caught error whose message contains
`'404'` or `'not found'` is rethrown as the not-found error, any other
caught error merely logs and the loop continues.  The result is paired with
the number of status retrievals performed. -/
def waitPollLoop (getF : Nat → GetAttempt) (fileId : String) :
    Nat → Nat → WaitResult × Nat
  | _, 0 => (WaitResult.timedOutError, 0)
  | i, fuel + 1 =>
    let continueLoop : WaitResult × Nat :=
      let r := waitPollLoop getF fileId (i + 1) fuel
      (r.1, r.2 + 1)
    let handleCaught : String → WaitResult × Nat := fun msg =>
      if escalatesWaitError msg then (WaitResult.notFoundError, 1) else continueLoop
    match getF i with
    | GetAttempt.threw msg => handleCaught msg
    | GetAttempt.got f =>
      if f.state = FileState.active then (WaitResult.ok, 1)
      else if f.state = FileState.failed then handleCaught (failedStateMsg fileId)
      else continueLoop

/-- `waitForFileActive` (service, later revision): extract the file id from
the URI (throwing when impossible), then run the polling loop with the
default attempt budget. -/
def waitForFileActive (getF : Nat → GetAttempt) (fileUri : String) : WaitResult :=
  match extractFileIdFromUri fileUri with
  | none => WaitResult.badUriError
  | some fileId => (waitPollLoop getF fileId 0 maxRetriesDefault).1

/-- `FileData` from `src/types/index.ts`. -/
structure FileData where
  uri : String
  mimeType : String
  deriving DecidableEq

/-- A Gemini content part: a text part `{ text }` or the part built by
`createPartFromUri(fileUri, mimeType)`. -/
inductive GeminiPart where
  | text : String → GeminiPart
  | fileRef : String → String → GeminiPart
  deriving DecidableEq

/-- A content block as built by `createUserContent(parts, role)`. -/
structure GeminiContent where
  role : String
  parts : List GeminiPart
  deriving DecidableEq

/-- The Gemini-side collaborators of the two message processors, abstracted
to their outcomes per file: `fetchUpload url` is the result of
`fetchAndUploadFile(url, ai)` (`some (uri, mimeType)` on success, where
`uri` is `uploadedFile.uri || ""`, or `none` when it throws for any reason:
fetch failure, malformed upload response, FAILED state or poll timeout);
`waitActive uri` tells whether `waitForFileActive(uri, ai)` returns
normally (`false` models any throw, including not-found escalation and
activation timeout). -/
structure FileEnv where
  fetchUpload : String → Option (String × String)
  waitActive : String → Bool

/-- The Google File API URI pattern recognised by `processMessageHistory`:
`"https://generativelanguage.googleapis.com/v1beta/files/"`. -/
def googleFilesUriBase : String :=
  "https://generativelanguage.googleapis.com/v1beta/files/"

/-- JavaScript property lookup on a parsed JSON object. -/
def lookupField (k : String) : List (String × JsValue) → Option JsValue
  | [] => none
  | (k2, v) :: rest => if k2 = k then some v else lookupField k rest

/-- The shape check of `processMessageHistory` on one `fileDataItem`:
an object with string fields `uri` and `mimeType` whose trims are
nonempty; returns the pair `(uri, mimeType)` when valid. -/
def validFileItem (v : JsValue) : Option (String × String) :=
  match v with
  | JsValue.obj fields =>
    match lookupField "uri" fields, lookupField "mimeType" fields with
    | some (JsValue.str u), some (JsValue.str m) =>
      if jsTrim u ≠ "" ∧ jsTrim m ≠ "" then some (u, m) else none
    | _, _ => none
  | _ => none

/-- Aggregated effects of processing a list of files: the file parts pushed,
the `newlyUploadedFilesInfo` records pushed, and the URLs passed to
`fetchAndUploadFile` (the fetch/upload call trace, in call order). -/
structure PipelineOut where
  parts : List GeminiPart
  files : List FileData
  uploadCalls : List String
  deriving DecidableEq

/-- The common tail of the per-file pipeline (later service revision): when
the resolved URI is nonempty, wait for activation; on success push both the
bookkeeping record and the file part, on failure drop the file. -/
def awaitAndAppend (env : FileEnv) (uri mime : String) (rest : PipelineOut) :
    PipelineOut :=
  if uri ≠ "" then
    if env.waitActive uri then
      ⟨GeminiPart.fileRef uri mime :: rest.parts,
       FileData.mk uri mime :: rest.files, rest.uploadCalls⟩
    else rest
  else rest

/-- The per-item file loop of `processMessageHistory` (later revision):
skip malformed descriptors; fetch-and-upload any URI that is nonempty and
does not start with the Google File API pattern (dropping the file if that
throws); then wait for activation and append. -/
def processFileItems (env : FileEnv) : List JsValue → PipelineOut
  | [] => ⟨[], [], []⟩
  | v :: vs =>
    let rest := processFileItems env vs
    match validFileItem v with
    | none => rest
    | some (u, m) =>
      if u ≠ "" ∧ ¬ jsStartsWith u googleFilesUriBase then
        match env.fetchUpload u with
        | none => { rest with uploadCalls := u :: rest.uploadCalls }
        | some (uri2, mime2) =>
          let o := awaitAndAppend env uri2 mime2 rest
          { o with uploadCalls := u :: o.uploadCalls }
      else awaitAndAppend env u m rest

/-- The text-part step shared by both processors: a `{ text }` part is
pushed exactly when the value is a string with nonempty trim. -/
def textParts (t : Option String) : List GeminiPart :=
  match t with
  | some s => if jsTrim s ≠ "" then [GeminiPart.text s] else []
  | none => []

/-- One history item as received: `role` is `none` for a malformed item
(not an object or role not a string). -/
structure HistoryItem where
  role : Option String
  text : Option String
  filedata : FiledataInput

/-- The file descriptors of a history item: the parsed filedata when it is
an array (`Array.isArray` guard), else nothing. -/
def historyFileItems (jsonParse : JsonParse) (item : HistoryItem) : List JsValue :=
  match parseFileData jsonParse item.filedata with
  | JsValue.arr xs => xs
  | _ => []

/-- The parts assembled for one history item: text part first (when
present and non-blank), then the file parts. -/
def historyItemParts (env : FileEnv) (jsonParse : JsonParse) (item : HistoryItem) :
    List GeminiPart :=
  textParts item.text ++ (processFileItems env (historyFileItems jsonParse item)).parts

/-- The loop body of `processMessageHistory` for one history item: a
malformed item is skipped wholesale; otherwise a block is pushed exactly
when the assembled parts list is nonempty. -/
def processHistoryItem (env : FileEnv) (jsonParse : JsonParse) (item : HistoryItem) :
    Option GeminiContent × PipelineOut :=
  match item.role with
  | none => (none, ⟨[], [], []⟩)
  | some role =>
    let fo := processFileItems env (historyFileItems jsonParse item)
    let parts := historyItemParts env jsonParse item
    (if parts = [] then none else some ⟨role, parts⟩, fo)

/-- The full history loop: blocks in input order, with the bookkeeping
records and upload calls concatenated in the same order. -/
def processHistoryList (env : FileEnv) (jsonParse : JsonParse) :
    List HistoryItem → List GeminiContent × List FileData × List String
  | [] => ([], [], [])
  | item :: rest =>
    let hd := processHistoryItem env jsonParse item
    let tl := processHistoryList env jsonParse rest
    (hd.1.toList ++ tl.1, hd.2.files ++ tl.2.1, hd.2.uploadCalls ++ tl.2.2)

/-- `processMessageHistory` (service): a missing or non-array history
yields no blocks and no records. -/
def processMessageHistory (env : FileEnv) (jsonParse : JsonParse) :
    Option (List HistoryItem) → List GeminiContent × List FileData × List String
  | none => ([], [], [])
  | some items => processHistoryList env jsonParse items

/-- The per-URL loop of `processCurrentUserInput` (later revision): every
parsed URL is passed to `fetchAndUploadFile`; a throw drops the file; on
success, a nonempty uploaded URI is awaited for activation and appended. -/
def processURLs (env : FileEnv) : List String → PipelineOut
  | [] => ⟨[], [], []⟩
  | url :: rest =>
    let tl := processURLs env rest
    match env.fetchUpload url with
    | none => { tl with uploadCalls := url :: tl.uploadCalls }
    | some (uri, mime) =>
      let o := awaitAndAppend env uri mime tl
      { o with uploadCalls := url :: o.uploadCalls }

/-- The parts assembled for the current turn. -/
def currentTurnParts (env : FileEnv) (jsonParse : JsonParse)
    (input : Option String) (fileURL : FileURLInput) : List GeminiPart :=
  textParts input ++ (processURLs env (parseFileURLs jsonParse fileURL)).parts

/-- `processCurrentUserInput` (service, later revision): text part first,
then the per-URL pipeline, emitting a single `"user"` block exactly when
the parts list is nonempty. -/
def processCurrentUserInput (env : FileEnv) (jsonParse : JsonParse)
    (input : Option String) (fileURL : FileURLInput) :
    List GeminiContent × PipelineOut :=
  let fo := processURLs env (parseFileURLs jsonParse fileURL)
  let parts := currentTurnParts env jsonParse input fileURL
  (if parts = [] then [] else [⟨"user", parts⟩], fo)

/-- The generation collaborator `generateGeminiContent`, abstracted to its
outcome: given the resolved model name, system instruction and contents it
returns the generated text or throws.  (The temperature and safety-settings
plumbing carries no logic relevant to any claim and is not modelled.) -/
abbrev GenCall := String → String → List GeminiContent → Except String String

/-- The request payload fields consumed by `processGeminiRequest`.
`apikey = none` models an absent field; note that JavaScript also treats
an empty-string key as missing (`if (!apiKey)`). -/
structure RequestData where
  apikey : Option String
  systemInstruction : Option String
  modelName : Option String
  input : Option String
  fileURL : FileURLInput
  MessageHistory : Option (List HistoryItem)

/-- The response envelope `ResponseData` (the optional `details` field
carries no logic and is not modelled). -/
structure ResponseData where
  success : Bool
  response : String
  fileDatas : List FileData
  deriving DecidableEq

/-- `DEFAULT_SYSTEM_INSTRUCTION` from the service. -/
def DEFAULT_SYSTEM_INSTRUCTION : String := "你是智能助手，你一直用中文回复解决问题。"

/-- The `if (!apiKey)` check: the key is missing or the empty string. -/
def apikeyMissing : Option String → Bool
  | none => true
  | some s => s = ""

/-- System-instruction defaulting in `processGeminiRequest`. -/
def resolvedSystemInstruction (data : RequestData) : String :=
  match data.systemInstruction with
  | some s => if jsTrim s ≠ "" then s else DEFAULT_SYSTEM_INSTRUCTION
  | none => DEFAULT_SYSTEM_INSTRUCTION

/-- Model-name defaulting in `processGeminiRequest`. -/
def resolvedModelName (data : RequestData) : String :=
  match data.modelName with
  | some s => if jsTrim s ≠ "" then s else "gemini-2.5-flash-preview-05-20"
  | none => "gemini-2.5-flash-preview-05-20"

/-- `allContents`: history blocks (in input order) followed by the
current-turn block, as concatenated by `processGeminiRequest`. -/
def allContentsOf (env : FileEnv) (jsonParse : JsonParse) (data : RequestData) :
    List GeminiContent :=
  (processMessageHistory env jsonParse data.MessageHistory).1 ++
    (processCurrentUserInput env jsonParse data.input data.fileURL).1

/-- `allUploadedFiles`: bookkeeping records of both phases, in order. -/
def allFilesOf (env : FileEnv) (jsonParse : JsonParse) (data : RequestData) :
    List FileData :=
  (processMessageHistory env jsonParse data.MessageHistory).2.1 ++
    (processCurrentUserInput env jsonParse data.input data.fileURL).2.files

/-- The `NoContent` response of `processGeminiRequest`. -/
def noContentResponse : ResponseData :=
  ⟨false, "没有找到有效内容发送给Gemini。", []⟩

/-- The missing-api-key response of `processGeminiRequest`. -/
def apikeyMissingResponse : ResponseData :=
  ⟨false, "apikey is missing in the request payload.", []⟩

/-- `processGeminiRequest` from the service: validate the key, process the
history and the current turn, merge, fail with `NoContent` on an empty
merge, otherwise call generation; a generation throw is caught and turned
into an internal-error response with an empty `fileDatas`.  The function is
total: every request value yields a `ResponseData`. -/
def processGeminiRequest (env : FileEnv) (gen : GenCall) (jsonParse : JsonParse)
    (data : RequestData) : ResponseData :=
  if apikeyMissing data.apikey then apikeyMissingResponse
  else
    let allContents := allContentsOf env jsonParse data
    let allUploadedFiles := allFilesOf env jsonParse data
    if allContents = [] then noContentResponse
    else
      match gen (resolvedModelName data) (resolvedSystemInstruction data) allContents with
      | Except.ok txt => ⟨true, txt, allUploadedFiles⟩
      | Except.error msg => ⟨false, "内部服务器错误: " ++ msg, []⟩

/-- Specification-level resolution of one history file descriptor: the
`(uri, mimeType)` pair that survives into the block, `none` when the file
is dropped (invalid shape, failed upload, empty uploaded URI, or failed
activation).  Mirrors the branch structure of `processFileItems`. -/
def resolveHistoryFile (env : FileEnv) (v : JsValue) : Option FileData :=
  match validFileItem v with
  | none => none
  | some (u, m) =>
    if u ≠ "" ∧ ¬ jsStartsWith u googleFilesUriBase then
      match env.fetchUpload u with
      | none => none
      | some (uri2, mime2) =>
        if uri2 ≠ "" ∧ env.waitActive uri2 then some ⟨uri2, mime2⟩ else none
    else if u ≠ "" ∧ env.waitActive u then some ⟨u, m⟩ else none

/-- Specification-level resolution of one current-turn URL. -/
def resolveCurrentURL (env : FileEnv) (url : String) : Option FileData :=
  match env.fetchUpload url with
  | none => none
  | some (uri, mime) =>
    if uri ≠ "" ∧ env.waitActive uri then some ⟨uri, mime⟩ else none

/-- The file part built from a surviving file. -/
def fileRefOf (f : FileData) : GeminiPart := GeminiPart.fileRef f.uri f.mimeType

/-- The upload-call trace predicted for one history descriptor: its URI
exactly when the descriptor is valid and needs an upload. -/
def historyUploadCall (v : JsValue) : Option String :=
  match validFileItem v with
  | none => none
  | some (u, _) =>
    if u ≠ "" ∧ ¬ jsStartsWith u googleFilesUriBase then some u else none

/-- A `JSON.parse` oracle on which every string fails to parse. -/
def jsonParseNone : JsonParse := fun _ => none

/-- A `JSON.parse` oracle that parses the literal string `["x","y"]` to the
two-element string array and fails on everything else. -/
def jsonParseXY : JsonParse := fun s =>
  if s = "[\"x\",\"y\"]" then some (JsValue.arr [JsValue.str "x", JsValue.str "y"])
  else none

/-- Gemini collaborators on which every upload succeeds (always yielding a
fresh URI different from the input) and every activation wait succeeds. -/
def envReupload : FileEnv :=
  ⟨fun _ => some ("https://example.com/changed", "video/mp4"), fun _ => true⟩

/-- Gemini collaborators on which every upload and every wait fails. -/
def envAllFail : FileEnv := ⟨fun _ => none, fun _ => false⟩

/-- A generation call that always succeeds. -/
def genOk : GenCall := fun _ _ _ => Except.ok "generated-text"

/-- A generation call that always throws. -/
def genBoom : GenCall := fun _ _ _ => Except.error "boom"

/-- A file URI already hosted on the Google File API. -/
def remoteFileUri : String :=
  "https://generativelanguage.googleapis.com/v1beta/files/abc123"

/-- A request with a key but no text, no files and no history. -/
def dataEmptyTurn : RequestData :=
  ⟨some "key", none, none, none, FileURLInput.undef, none⟩

/-- A request with a key and a current-turn text only. -/
def dataWithText : RequestData :=
  ⟨some "key", none, none, some "hello", FileURLInput.undef, none⟩

/-- A request with current-turn text but no api key. -/
def dataNoKey : RequestData :=
  ⟨none, none, none, some "hello", FileURLInput.undef, none⟩

/-- A well-formed history file descriptor whose URI is already remote. -/
def remoteDescriptor : JsValue :=
  JsValue.obj [("uri", JsValue.str remoteFileUri), ("mimeType", JsValue.str "video/mp4")]

/-- A well-formed history file descriptor with an external URI. -/
def externalDescriptor : JsValue :=
  JsValue.obj [("uri", JsValue.str "https://example.com/a.png"),
    ("mimeType", JsValue.str "image/png")]

/-- A history item with a role, a text and no file data. -/
def histItemText : HistoryItem := ⟨some "user", some "hi", FiledataInput.undef⟩

/-- A status-retrieval oracle whose first attempt throws a transient network
error and whose later attempts would report the file `ACTIVE`. -/
def getFTransient : Nat → GetAttempt := fun i =>
  if i = 0 then GetAttempt.threw "ECONNRESET"
  else GetAttempt.got ⟨"files/abc", "uri-abc", "video/mp4", FileState.active⟩

/-- A status-retrieval oracle that always reports `PROCESSING`. -/
def getFAllProcessing : Nat → GetAttempt := fun _ =>
  GetAttempt.got ⟨"files/abc", "uri-abc", "video/mp4", FileState.processing⟩

/-- A malformed history item: role missing. -/
def itemNoRole : HistoryItem := ⟨none, some "hi", FiledataInput.undef⟩

/-- A status-retrieval oracle that always throws a not-found error. -/
def getFNotFound : Nat → GetAttempt := fun _ =>
  GetAttempt.threw "Error: File not found (404)"

/-- A status-retrieval oracle that always reports `ACTIVE`. -/
def getFAllActive : Nat → GetAttempt := fun _ =>
  GetAttempt.got ⟨"files/abc", "uri-abc", "video/mp4", FileState.active⟩

/-- Auxiliary list fact: the length of a `filterMap` is the number of
elements on which the function succeeds. -/
theorem length_filterMap_eq_countP {α β : Type} (f : α → Option β) (l : List α) :
    (l.filterMap f).length = l.countP (fun a => (f a).isSome) := by
  induction l with
  | nil => rfl
  | cons a l ih =>
    cases hf : f a <;>
      simp [List.filterMap_cons, hf, List.countP_cons, ih]

/-- Characterization of the history per-file loop: its three outputs are
pointwise `filterMap`s of the descriptor list, so surviving files keep
their original relative order and failed ones simply disappear. -/
theorem processFileItems_eq (env : FileEnv) (vs : List JsValue) :
    processFileItems env vs =
      ⟨(vs.filterMap (resolveHistoryFile env)).map fileRefOf,
       vs.filterMap (resolveHistoryFile env),
       vs.filterMap historyUploadCall⟩ := by
  induction vs with
  | nil => rfl
  | cons v vs ih =>
    cases hv : validFileItem v with
    | none =>
      simp [processFileItems, resolveHistoryFile, historyUploadCall, hv, ih,
        List.filterMap_cons]
    | some um =>
      obtain ⟨u, m⟩ := um
      by_cases hu : u = ""
      · simp [processFileItems, resolveHistoryFile, historyUploadCall,
          awaitAndAppend, hv, hu, ih, List.filterMap_cons]
      · by_cases hs : jsStartsWith u googleFilesUriBase
        · by_cases hw : env.waitActive u
          · simp [processFileItems, resolveHistoryFile, historyUploadCall,
              awaitAndAppend, fileRefOf, hv, hu, hs, hw, ih, List.filterMap_cons]
          · simp [processFileItems, resolveHistoryFile, historyUploadCall,
              awaitAndAppend, hv, hu, hs, hw, ih, List.filterMap_cons]
        · cases hfu : env.fetchUpload u with
          | none =>
            simp [processFileItems, resolveHistoryFile, historyUploadCall,
              hv, hu, hs, hfu, ih, List.filterMap_cons]
          | some p =>
            obtain ⟨uri2, mime2⟩ := p
            by_cases hu2 : uri2 = ""
            · simp [processFileItems, resolveHistoryFile, historyUploadCall,
                awaitAndAppend, hv, hu, hs, hfu, hu2, ih, List.filterMap_cons]
            · by_cases hw : env.waitActive uri2
              · simp [processFileItems, resolveHistoryFile, historyUploadCall,
                  awaitAndAppend, fileRefOf, hv, hu, hs, hfu, hu2, hw, ih,
                  List.filterMap_cons]
              · simp [processFileItems, resolveHistoryFile, historyUploadCall,
                  awaitAndAppend, hv, hu, hs, hfu, hu2, hw, ih,
                  List.filterMap_cons]

/-- Characterization of the current-turn per-URL loop: parts and records
are `filterMap`s of the URL list, and every URL is fetch-uploaded. -/
theorem processURLs_eq (env : FileEnv) (urls : List String) :
    processURLs env urls =
      ⟨(urls.filterMap (resolveCurrentURL env)).map fileRefOf,
       urls.filterMap (resolveCurrentURL env),
       urls⟩ := by
  induction urls with
  | nil => rfl
  | cons url urls ih =>
    cases hfu : env.fetchUpload url with
    | none =>
      simp [processURLs, resolveCurrentURL, hfu, ih, List.filterMap_cons]
    | some p =>
      obtain ⟨uri, mime⟩ := p
      by_cases hu : uri = ""
      · simp [processURLs, resolveCurrentURL, awaitAndAppend, hfu, hu, ih,
          List.filterMap_cons]
      · by_cases hw : env.waitActive uri
        · simp [processURLs, resolveCurrentURL, awaitAndAppend, fileRefOf,
            hfu, hu, hw, ih, List.filterMap_cons]
        · simp [processURLs, resolveCurrentURL, awaitAndAppend, hfu, hu, hw,
            ih, List.filterMap_cons]

/-- C5: `parseFileURLs` resolves the accepted file-locator encodings with
the precedence array form, then JSON-array parse, then comma-split, then
single literal, each fallback only when the prior form does not apply or
fails to parse.  On `"a,b,c"` (not valid JSON) it returns exactly
`["a","b","c"]`; on the JSON-encoded string `'["x","y"]'` it returns
exactly `["x","y"]` without re-splitting on commas; the array form never
consults `JSON.parse`; a non-JSON comma-free string falls back to the
single trimmed literal. -/
theorem parseFileURLs_encoding_precedence (jsonParse : JsonParse)
    (h1 : jsonParse "a,b,c" = none)
    (h2 : jsonParse "[\"x\",\"y\"]" =
      some (JsValue.arr [JsValue.str "x", JsValue.str "y"])) :
    parseFileURLs jsonParse (FileURLInput.str "a,b,c") = ["a", "b", "c"] ∧
    parseFileURLs jsonParse (FileURLInput.str "[\"x\",\"y\"]") = ["x", "y"] ∧
    (∀ jp2 : JsonParse, ∀ xs,
      parseFileURLs jp2 (FileURLInput.arr xs) =
        parseFileURLs jsonParse (FileURLInput.arr xs)) ∧
    (∀ s, jsTrim s ≠ "" → jsonParse s = none → jsContainsChar s ',' = false →
      parseFileURLs jsonParse (FileURLInput.str s) = [jsTrim s]) := by
  refine ⟨?_, ?_, fun jp2 xs => rfl, fun s hs hp hc => ?_⟩
  · simp only [parseFileURLs, h1]
    decide
  · simp only [parseFileURLs, h2]
    decide
  · simp [parseFileURLs, hs, hp, hc]

/-- Witness for C5 on a concrete `JSON.parse` oracle. -/
theorem parseFileURLs_encoding_precedence_witness :
    parseFileURLs jsonParseXY (FileURLInput.str "a,b,c") = ["a", "b", "c"] ∧
    parseFileURLs jsonParseXY (FileURLInput.str "[\"x\",\"y\"]") = ["x", "y"] :=
  ⟨(parseFileURLs_encoding_precedence jsonParseXY rfl rfl).1,
   (parseFileURLs_encoding_precedence jsonParseXY rfl rfl).2.1⟩

/-- C8: `parseFileData` returns the empty file list on an empty or
whitespace-only string and on a non-empty string that fails to parse as
JSON, and it is a total function (also returning the empty list on a
missing value), so malformed embedded file data never causes a hard
failure of the call. -/
theorem parseFileData_malformed_is_no_files (jsonParse : JsonParse) (s : String) :
    (jsTrim s = "" → parseFileData jsonParse (FiledataInput.str s) = JsValue.arr []) ∧
    (jsonParse s = none → parseFileData jsonParse (FiledataInput.str s) = JsValue.arr []) ∧
    parseFileData jsonParse FiledataInput.undef = JsValue.arr [] := by
  refine ⟨fun h => by simp [parseFileData, h], fun h => ?_, rfl⟩
  by_cases he : jsTrim s = ""
  · simp [parseFileData, he]
  · simp [parseFileData, he, h]

/-- Witness for C8 on concrete blank and unparsable strings. -/
theorem parseFileData_malformed_is_no_files_witness :
    parseFileData jsonParseNone (FiledataInput.str "   ") = JsValue.arr [] ∧
    parseFileData jsonParseNone (FiledataInput.str "not-json") = JsValue.arr [] :=
  ⟨(parseFileData_malformed_is_no_files jsonParseNone "   ").1 (by decide),
   (parseFileData_malformed_is_no_files jsonParseNone "not-json").2.1 rfl⟩

/-- C4: when the concatenation of history blocks and the current-turn block
is empty, `processGeminiRequest` returns the request-level `NoContent`
failure instead of invoking generation (the result is the same for every
generation collaborator), and in particular a request with empty text and
no files across the entire call reports `NoContent`. -/
theorem no_content_propagates (env : FileEnv) (gen : GenCall)
    (jsonParse : JsonParse) (data : RequestData)
    (hkey : apikeyMissing data.apikey = false)
    (hempty : allContentsOf env jsonParse data = []) :
    processGeminiRequest env gen jsonParse data = noContentResponse ∧
    (∀ gen2 : GenCall,
      processGeminiRequest env gen2 jsonParse data = noContentResponse) ∧
    (∀ k : String, k ≠ "" →
      processGeminiRequest env gen jsonParse
        ⟨some k, data.systemInstruction, data.modelName, none,
          FileURLInput.undef, none⟩ = noContentResponse) := by
  refine ⟨?_, fun gen2 => ?_, fun k hk => ?_⟩
  · simp [processGeminiRequest, hkey, hempty]
  · simp [processGeminiRequest, hkey, hempty]
  · simp [processGeminiRequest, apikeyMissing, hk, allContentsOf,
      processMessageHistory, processCurrentUserInput, currentTurnParts,
      textParts, parseFileURLs, processURLs]

/-- Witness for C4: a concrete request with a key, empty text, no files and
no history yields exactly the `NoContent` response. -/
theorem no_content_propagates_witness :
    processGeminiRequest envAllFail genOk jsonParseNone dataEmptyTurn =
      noContentResponse :=
  (no_content_propagates envAllFail genOk jsonParseNone dataEmptyTurn rfl rfl).1

/-- C10: `processGeminiRequest` is total over its input (it is a function
into `ResponseData`, so every request yields a response and none throws),
and on any internal error — a missing api key, or a throw escaping the
generation call — the result has `success = false` and an empty
`fileDatas` list; indeed every unsuccessful result carries an empty
`fileDatas`. -/
theorem request_total_error_shape (env : FileEnv) (gen : GenCall)
    (jsonParse : JsonParse) (data : RequestData) :
    (apikeyMissing data.apikey = true →
      processGeminiRequest env gen jsonParse data = apikeyMissingResponse) ∧
    (∀ msg, gen (resolvedModelName data) (resolvedSystemInstruction data)
        (allContentsOf env jsonParse data) = Except.error msg →
      (processGeminiRequest env gen jsonParse data).success = false ∧
      (processGeminiRequest env gen jsonParse data).fileDatas = []) ∧
    ((processGeminiRequest env gen jsonParse data).success = false →
      (processGeminiRequest env gen jsonParse data).fileDatas = []) := by
  refine ⟨fun h => by simp [processGeminiRequest, h], fun msg hg => ?_, fun h => ?_⟩
  · by_cases hk : apikeyMissing data.apikey
    · simp [processGeminiRequest, hk, apikeyMissingResponse]
    · by_cases he : allContentsOf env jsonParse data = []
      · simp [processGeminiRequest, hk, he, noContentResponse]
      · simp [processGeminiRequest, hk, he, hg]
  · by_cases hk : apikeyMissing data.apikey
    · simp [processGeminiRequest, hk, apikeyMissingResponse]
    · by_cases he : allContentsOf env jsonParse data = []
      · simp [processGeminiRequest, hk, he, noContentResponse]
      · revert h
        simp only [processGeminiRequest, hk, he]
        cases hg : gen (resolvedModelName data) (resolvedSystemInstruction data)
          (allContentsOf env jsonParse data) <;> simp [hg]

/-- Witness for C10: a concrete missing-key request and a concrete
generation throw both produce an unsuccessful response with no file
records. -/
theorem request_total_error_shape_witness :
    processGeminiRequest envAllFail genBoom jsonParseNone dataNoKey =
      apikeyMissingResponse ∧
    (processGeminiRequest envAllFail genBoom jsonParseNone dataWithText).success
      = false ∧
    (processGeminiRequest envAllFail genBoom jsonParseNone dataWithText).fileDatas
      = [] :=
  ⟨(request_total_error_shape envAllFail genBoom jsonParseNone dataNoKey).1 rfl,
   ((request_total_error_shape envAllFail genBoom jsonParseNone dataWithText).2.1
      "boom" rfl).1,
   ((request_total_error_shape envAllFail genBoom jsonParseNone dataWithText).2.1
      "boom" rfl).2⟩

/-- Auxiliary: the history loop distributes over list append. -/
theorem processHistoryList_append (env : FileEnv) (jsonParse : JsonParse)
    (xs ys : List HistoryItem) :
    (processHistoryList env jsonParse (xs ++ ys)).1 =
      (processHistoryList env jsonParse xs).1 ++
        (processHistoryList env jsonParse ys).1 := by
  induction xs with
  | nil => rfl
  | cons x xs ih => simp [processHistoryList, ih]

/-- C3: every per-file failure (fetch, upload, or activation, including
activation timeout — all abstracted by the file collaborators returning a
failure for that file) is contained at the file level: the failing file is
dropped while sibling files keep their parts and records, each history
item's contribution is independent of the others, and the overall request
still succeeds whenever at least one content block was produced and
generation succeeds. -/
theorem per_file_failure_contained (env : FileEnv) (gen : GenCall)
    (jsonParse : JsonParse) :
    (∀ pre post v, resolveHistoryFile env v = none →
      (processFileItems env (pre ++ v :: post)).parts =
        (processFileItems env (pre ++ post)).parts ∧
      (processFileItems env (pre ++ v :: post)).files =
        (processFileItems env (pre ++ post)).files) ∧
    (∀ pre post url, resolveCurrentURL env url = none →
      (processURLs env (pre ++ url :: post)).parts =
        (processURLs env (pre ++ post)).parts ∧
      (processURLs env (pre ++ url :: post)).files =
        (processURLs env (pre ++ post)).files) ∧
    (∀ item rest,
      (processHistoryList env jsonParse (item :: rest)).1 =
        (processHistoryItem env jsonParse item).1.toList ++
          (processHistoryList env jsonParse rest).1) ∧
    (∀ data txt, apikeyMissing data.apikey = false →
      allContentsOf env jsonParse data ≠ [] →
      gen (resolvedModelName data) (resolvedSystemInstruction data)
          (allContentsOf env jsonParse data) = Except.ok txt →
      processGeminiRequest env gen jsonParse data =
        ⟨true, txt, allFilesOf env jsonParse data⟩) := by
  refine ⟨fun pre post v hv => ?_, fun pre post url hu => ?_,
    fun item rest => rfl, fun data txt hk hne hg => ?_⟩
  · simp [processFileItems_eq, List.filterMap_append, List.filterMap_cons, hv]
  · simp [processURLs_eq, List.filterMap_append, List.filterMap_cons, hu]
  · simp [processGeminiRequest, hk, hne, hg]

/-- Witness for C3: with collaborators that fail every file, a failing
descriptor and a failing URL are dropped without affecting an empty
sibling list, and a text-only request still succeeds. -/
theorem per_file_failure_contained_witness :
    (processFileItems envAllFail ([] ++ externalDescriptor :: [])).parts =
      (processFileItems envAllFail ([] ++ [])).parts ∧
    (processURLs envAllFail ([] ++ "https://example.com/a.png" :: [])).parts =
      (processURLs envAllFail ([] ++ [])).parts ∧
    processGeminiRequest envAllFail genOk jsonParseNone dataWithText =
      ⟨true, "generated-text", allFilesOf envAllFail jsonParseNone dataWithText⟩ :=
  ⟨((per_file_failure_contained envAllFail genOk jsonParseNone).1
      [] [] externalDescriptor (by decide)).1,
   ((per_file_failure_contained envAllFail genOk jsonParseNone).2.1
      [] [] "https://example.com/a.png" (by decide)).1,
   (per_file_failure_contained envAllFail genOk jsonParseNone).2.2.2
      dataWithText "generated-text" rfl (by decide) rfl⟩

/-- C1: for every turn (history item with a role, or the current turn) the
emitted block's parts are one Text part first exactly when the text is
present and non-blank (`textParts`), followed by exactly one FileRef part
per successfully surviving file, as a `filterMap` of the caller-supplied
descriptor list — so files that fail upload or activation are excluded
while the surviving file parts keep the original relative order, and the
number of file parts equals the number of surviving descriptors (N-1 when
exactly one of N fails). -/
theorem turn_parts_text_first_files_in_order (env : FileEnv)
    (jsonParse : JsonParse) (item : HistoryItem) (role : String)
    (hrole : item.role = some role) (input : Option String)
    (fileURL : FileURLInput) :
    (processHistoryItem env jsonParse item).1 =
      (if historyItemParts env jsonParse item = [] then none
       else some ⟨role, historyItemParts env jsonParse item⟩) ∧
    historyItemParts env jsonParse item =
      textParts item.text ++
        ((historyFileItems jsonParse item).filterMap
          (resolveHistoryFile env)).map fileRefOf ∧
    (processCurrentUserInput env jsonParse input fileURL).1 =
      (if currentTurnParts env jsonParse input fileURL = [] then []
       else [⟨"user", currentTurnParts env jsonParse input fileURL⟩]) ∧
    currentTurnParts env jsonParse input fileURL =
      textParts input ++
        ((parseFileURLs jsonParse fileURL).filterMap
          (resolveCurrentURL env)).map fileRefOf ∧
    ((historyFileItems jsonParse item).filterMap
        (resolveHistoryFile env)).length =
      (historyFileItems jsonParse item).countP
        (fun v => (resolveHistoryFile env v).isSome) := by
  refine ⟨?_, ?_, rfl, ?_, length_filterMap_eq_countP _ _⟩
  · simp [processHistoryItem, hrole, historyItemParts]
  · simp [historyItemParts, processFileItems_eq]
  · simp [currentTurnParts, processURLs_eq]

/-- Witness for C1: a concrete history item with text and no files yields
the single-text-part block. -/
theorem turn_parts_text_first_files_in_order_witness :
    (processHistoryItem envAllFail jsonParseNone histItemText).1 =
      some ⟨"user", [GeminiPart.text "hi"]⟩ := by
  have h := turn_parts_text_first_files_in_order envAllFail jsonParseNone
    histItemText "user" rfl (some "hello") FileURLInput.undef
  rw [h.1]
  decide

/-- C9: a content block is emitted for a history item iff the item has a
role and its assembled parts list is nonempty; an item that contributes no
block is skipped silently, leaving the blocks of the surrounding items
unchanged (and, the functions being total, raising no error); likewise the
current turn contributes a block iff its parts list is nonempty. -/
theorem block_emitted_iff_parts_nonempty (env : FileEnv)
    (jsonParse : JsonParse) (item : HistoryItem) (input : Option String)
    (fileURL : FileURLInput) :
    ((processHistoryItem env jsonParse item).1 ≠ none ↔
      (∃ role, item.role = some role) ∧
        historyItemParts env jsonParse item ≠ []) ∧
    (∀ pre post, (processHistoryItem env jsonParse item).1 = none →
      (processHistoryList env jsonParse (pre ++ item :: post)).1 =
        (processHistoryList env jsonParse (pre ++ post)).1) ∧
    ((processCurrentUserInput env jsonParse input fileURL).1 = [] ↔
      currentTurnParts env jsonParse input fileURL = []) := by
  refine ⟨?_, fun pre post hnone => ?_, ?_⟩
  · cases hrole : item.role with
    | none => simp [processHistoryItem, hrole]
    | some role =>
      by_cases hp : historyItemParts env jsonParse item = [] <;>
        simp [processHistoryItem, hrole, hp, historyItemParts]
  · rw [processHistoryList_append, processHistoryList_append]
    simp [processHistoryList, hnone]
  · by_cases hp : currentTurnParts env jsonParse input fileURL = [] <;>
      simp [processCurrentUserInput, hp, currentTurnParts]

/-- Witness for C9: a concrete role-less item contributes no block and its
removal leaves a sibling's block list unchanged. -/
theorem block_emitted_iff_parts_nonempty_witness :
    (processHistoryList envAllFail jsonParseNone
        ([histItemText] ++ itemNoRole :: [])).1 =
      (processHistoryList envAllFail jsonParseNone ([histItemText] ++ [])).1 :=
  (block_emitted_iff_parts_nonempty envAllFail jsonParseNone itemNoRole
    (some "hello") FileURLInput.undef).2.1 [histItemText] [] rfl

/-- C2 counterexample: for a current-turn locator that already matches the
remote store's canonical URI pattern, the pipeline nevertheless performs a
fetch-and-upload call for that file (the call trace is nonempty) and the
emitted FileRef part carries the freshly uploaded URI, not the supplied
one — refuting the claim's "this holds ... for current-turn file locators
alike". -/
theorem current_turn_reuploads_already_remote :
    jsStartsWith remoteFileUri googleFilesUriBase = true ∧
    (processURLs envReupload [remoteFileUri]).uploadCalls = [remoteFileUri] ∧
    (processURLs envReupload [remoteFileUri]).parts =
      [GeminiPart.fileRef "https://example.com/changed" "video/mp4"] :=
  ⟨by decide, by decide, by decide⟩

/-- C2 (amended): a history file reference whose locator matches the remote
store's canonical URI pattern triggers no fetch-and-upload call and its
URI and MIME type are used verbatim in the surviving FileRef part
(subject only to the activation wait); the upload-call trace of the
history loop contains exactly the valid descriptors needing upload; but
every current-turn locator is passed to fetch-and-upload unconditionally,
pattern-matching or not. -/
theorem already_remote_skips_upload_in_history_only (env : FileEnv)
    (v : JsValue) (u m : String)
    (hv : validFileItem v = some (u, m))
    (hp : jsStartsWith u googleFilesUriBase = true) :
    (∀ vs, (processFileItems env (v :: vs)).uploadCalls =
      (processFileItems env vs).uploadCalls) ∧
    resolveHistoryFile env v =
      (if env.waitActive u then some ⟨u, m⟩ else none) ∧
    (∀ vs, (processFileItems env vs).uploadCalls =
      vs.filterMap historyUploadCall) ∧
    (∀ urls, (processURLs env urls).uploadCalls = urls) := by
  have hu : u ≠ "" := by
    intro h
    rw [h] at hp
    exact absurd hp (by decide)
  refine ⟨fun vs => ?_, ?_, fun vs => ?_, fun urls => ?_⟩
  · simp [processFileItems_eq, List.filterMap_cons, historyUploadCall, hv, hp]
  · simp [resolveHistoryFile, hv, hp, hu]
  · simp [processFileItems_eq]
  · simp [processURLs_eq]

/-- Witness for the amended C2 on a concrete already-remote descriptor. -/
theorem already_remote_skips_upload_in_history_only_witness :
    (processFileItems envReupload [remoteDescriptor]).uploadCalls =
      (processFileItems envReupload []).uploadCalls ∧
    resolveHistoryFile envReupload remoteDescriptor =
      (if envReupload.waitActive remoteFileUri then
        some ⟨remoteFileUri, "video/mp4"⟩ else none) :=
  ⟨(already_remote_skips_upload_in_history_only envReupload remoteDescriptor
      remoteFileUri "video/mp4" (by decide) (by decide)).1 [],
   (already_remote_skips_upload_in_history_only envReupload remoteDescriptor
      remoteFileUri "video/mp4" (by decide) (by decide)).2.1⟩

/-- Auxiliary: the fetch-upload polling loop never performs more status
retrievals than its budget. -/
theorem pollFileLoop_count_le (getF : Nat → GetAttempt) (nm : String) :
    ∀ fuel i, (pollFileLoop getF nm i fuel).2 ≤ fuel := by
  intro fuel
  induction fuel with
  | zero => intro i; simp [pollFileLoop]
  | succ n ih =>
    intro i
    simp only [pollFileLoop]
    cases getF i with
    | threw msg => simp
    | got f =>
      by_cases ha : f.state = FileState.active
      · simp [ha]
      · by_cases hf : f.state = FileState.failed
        · simp [ha, hf]
        · simpa [ha, hf] using ih (i + 1)

/-- Auxiliary: the activation-wait polling loop never performs more status
retrievals than its budget. -/
theorem waitPollLoop_count_le (getF : Nat → GetAttempt) (fileId : String) :
    ∀ fuel i, (waitPollLoop getF fileId i fuel).2 ≤ fuel := by
  intro fuel
  induction fuel with
  | zero => intro i; simp [waitPollLoop]
  | succ n ih =>
    intro i
    simp only [waitPollLoop]
    cases getF i with
    | threw msg =>
      by_cases he : escalatesWaitError msg
      · simp [he]
      · simpa [he] using ih (i + 1)
    | got f =>
      by_cases ha : f.state = FileState.active
      · simp [ha]
      · by_cases hf : f.state = FileState.failed
        · by_cases he : escalatesWaitError (failedStateMsg fileId)
          · simp [ha, hf, he]
          · simpa [ha, hf, he] using ih (i + 1)
        · simpa [ha, hf] using ih (i + 1)

/-- Auxiliary: when every attempt in the budget reports `PROCESSING`, the
fetch-upload polling loop exhausts the budget and times out. -/
theorem pollFileLoop_all_processing (getF : Nat → GetAttempt) (nm : String) :
    ∀ fuel i,
      (∀ j, j < fuel → ∃ g, getF (i + j) = GetAttempt.got g ∧
        g.state = FileState.processing) →
      (pollFileLoop getF nm i fuel).1 =
        Except.error (FetchUploadError.activationTimedOut nm) := by
  intro fuel
  induction fuel with
  | zero => intro i _; rfl
  | succ n ih =>
    intro i hall
    obtain ⟨g, hg, hgs⟩ := hall 0 (Nat.succ_pos n)
    rw [Nat.add_zero] at hg
    simp only [pollFileLoop, hg, hgs]
    have := ih (i + 1) (fun j hj => by
      have h := hall (j + 1) (Nat.succ_lt_succ hj)
      rwa [show i + (j + 1) = i + 1 + j by omega] at h)
    simp [this]

/-- Auxiliary: when every attempt in the budget reports `PROCESSING`, the
activation-wait polling loop exhausts the budget and times out. -/
theorem waitPollLoop_all_processing (getF : Nat → GetAttempt) (fileId : String) :
    ∀ fuel i,
      (∀ j, j < fuel → ∃ g, getF (i + j) = GetAttempt.got g ∧
        g.state = FileState.processing) →
      (waitPollLoop getF fileId i fuel).1 = WaitResult.timedOutError := by
  intro fuel
  induction fuel with
  | zero => intro i _; rfl
  | succ n ih =>
    intro i hall
    obtain ⟨g, hg, hgs⟩ := hall 0 (Nat.succ_pos n)
    rw [Nat.add_zero] at hg
    simp only [waitPollLoop, hg, hgs]
    have := ih (i + 1) (fun j hj => by
      have h := hall (j + 1) (Nat.succ_lt_succ hj)
      rwa [show i + (j + 1) = i + 1 + j by omega] at h)
    simp [this]

/-- Auxiliary: if the first `k` attempts report `PROCESSING` and attempt `k`
(within budget) returns a file, the fetch-upload polling loop succeeds on an
`ACTIVE` state and fails on a `FAILED` state at that attempt. -/
theorem pollFileLoop_first_sig (getF : Nat → GetAttempt) (nm : String)
    (f : PolledFile) :
    ∀ k fuel i, k < fuel →
      (∀ j, j < k → ∃ g, getF (i + j) = GetAttempt.got g ∧
        g.state = FileState.processing) →
      getF (i + k) = GetAttempt.got f →
      (f.state = FileState.active →
        (pollFileLoop getF nm i fuel).1 = Except.ok (f, f.mimeType)) ∧
      (f.state = FileState.failed →
        (pollFileLoop getF nm i fuel).1 =
          Except.error (FetchUploadError.fileFailed f.name)) := by
  intro k
  induction k with
  | zero =>
    intro fuel i hk hpre hf
    cases fuel with
    | zero => omega
    | succ n =>
      rw [Nat.add_zero] at hf
      constructor
      · intro ha; simp [pollFileLoop, hf, ha]
      · intro hfl; simp [pollFileLoop, hf, hfl]
  | succ k ih =>
    intro fuel i hk hpre hf
    cases fuel with
    | zero => omega
    | succ n =>
      obtain ⟨g, hg, hgs⟩ := hpre 0 (Nat.succ_pos k)
      rw [Nat.add_zero] at hg
      have hrec := ih n (i + 1) (by omega)
        (fun j hj => by
          have h := hpre (j + 1) (Nat.succ_lt_succ hj)
          rwa [show i + (j + 1) = i + 1 + j by omega] at h)
        (by rwa [show i + (k + 1) = i + 1 + k by omega] at hf)
      constructor
      · intro ha
        simp only [pollFileLoop, hg, hgs]
        simp [hrec.1 ha]
      · intro hfl
        simp only [pollFileLoop, hg, hgs]
        simp [hrec.2 hfl]

/-- Auxiliary: if the first `k` attempts report `PROCESSING` and attempt `k`
(within budget) reports `ACTIVE`, the activation-wait loop returns normally. -/
theorem waitPollLoop_first_active (getF : Nat → GetAttempt) (fileId : String)
    (f : PolledFile) :
    ∀ k fuel i, k < fuel →
      (∀ j, j < k → ∃ g, getF (i + j) = GetAttempt.got g ∧
        g.state = FileState.processing) →
      getF (i + k) = GetAttempt.got f → f.state = FileState.active →
      (waitPollLoop getF fileId i fuel).1 = WaitResult.ok := by
  intro k
  induction k with
  | zero =>
    intro fuel i hk hpre hf ha
    cases fuel with
    | zero => omega
    | succ n =>
      rw [Nat.add_zero] at hf
      simp [waitPollLoop, hf, ha]
  | succ k ih =>
    intro fuel i hk hpre hf ha
    cases fuel with
    | zero => omega
    | succ n =>
      obtain ⟨g, hg, hgs⟩ := hpre 0 (Nat.succ_pos k)
      rw [Nat.add_zero] at hg
      have hrec := ih n (i + 1) (by omega)
        (fun j hj => by
          have h := hpre (j + 1) (Nat.succ_lt_succ hj)
          rwa [show i + (j + 1) = i + 1 + j by omega] at h)
        (by rwa [show i + (k + 1) = i + 1 + k by omega] at hf) ha
      simp only [waitPollLoop, hg, hgs]
      simp [hrec]

/-- Auxiliary: when every attempt in the budget reports `PROCESSING` or
`FAILED` and the failed-state message for this file id does not contain
`'404'` or `'not found'`, the activation-wait loop never returns normally:
it swallows every `FAILED` observation and exhausts the budget with the
timeout error. -/
theorem waitPollLoop_stuck_failed (getF : Nat → GetAttempt) (fileId : String)
    (hesc : escalatesWaitError (failedStateMsg fileId) = false) :
    ∀ fuel i,
      (∀ j, j < fuel → ∃ g, getF (i + j) = GetAttempt.got g ∧
        (g.state = FileState.processing ∨ g.state = FileState.failed)) →
      (waitPollLoop getF fileId i fuel).1 = WaitResult.timedOutError := by
  intro fuel
  induction fuel with
  | zero => intro i _; rfl
  | succ n ih =>
    intro i hall
    obtain ⟨g, hg, hgs⟩ := hall 0 (Nat.succ_pos n)
    rw [Nat.add_zero] at hg
    have hrec := ih (i + 1) (fun j hj => by
      have h := hall (j + 1) (Nat.succ_lt_succ hj)
      rwa [show i + (j + 1) = i + 1 + j by omega] at h)
    cases hgs with
    | inl hp =>
      simp only [waitPollLoop, hg, hp]
      simp [hrec]
    | inr hf =>
      simp only [waitPollLoop, hg, hf]
      simp [hesc, hrec]

/-- C7: both activation polls (the loop inside `fetchAndUploadFile`, budget
`MAX_RETRIES`, interval `POLLING_INTERVAL_MS`, and the loop of
`waitForFileActive`, budget `maxRetriesDefault`, interval
`retryDelayMsDefault`) use a fixed maximum of 20 status-retrieval attempts
at a fixed 2-3 second interval, never exceed that attempt budget, and —
being total functions — always terminate: an `ACTIVE` state (after any run
of `PROCESSING` polls) yields success, a `FAILED` state makes the wait
fail (immediately in `fetchAndUploadFile`; in `waitForFileActive` the
`FAILED` observations are swallowed and, the state being terminal, the
budget is exhausted with the timeout error, so the wait still never
succeeds), and exhausting the budget while still `PROCESSING` yields the
timeout error. -/
theorem activation_poll_budget_and_outcomes (getF : Nat → GetAttempt)
    (nm fileId : String) (f : PolledFile) (fuel i : Nat) :
    (MAX_RETRIES = 20 ∧ maxRetriesDefault = 20 ∧
      2 * 1000 ≤ POLLING_INTERVAL_MS ∧ POLLING_INTERVAL_MS ≤ 3 * 1000 ∧
      2 * 1000 ≤ retryDelayMsDefault ∧ retryDelayMsDefault ≤ 3 * 1000) ∧
    (pollFileLoop getF nm i fuel).2 ≤ fuel ∧
    (waitPollLoop getF fileId i fuel).2 ≤ fuel ∧
    ((∀ j, j < fuel → ∃ g, getF (i + j) = GetAttempt.got g ∧
        g.state = FileState.processing) →
      (pollFileLoop getF nm i fuel).1 =
        Except.error (FetchUploadError.activationTimedOut nm) ∧
      (waitPollLoop getF fileId i fuel).1 = WaitResult.timedOutError) ∧
    (∀ k, k < fuel →
      (∀ j, j < k → ∃ g, getF (i + j) = GetAttempt.got g ∧
        g.state = FileState.processing) →
      getF (i + k) = GetAttempt.got f →
      (f.state = FileState.active →
        (pollFileLoop getF nm i fuel).1 = Except.ok (f, f.mimeType) ∧
        (waitPollLoop getF fileId i fuel).1 = WaitResult.ok) ∧
      (f.state = FileState.failed →
        (pollFileLoop getF nm i fuel).1 =
          Except.error (FetchUploadError.fileFailed f.name))) ∧
    ((∀ j, j < fuel → ∃ g, getF (i + j) = GetAttempt.got g ∧
        (g.state = FileState.processing ∨ g.state = FileState.failed)) →
      escalatesWaitError (failedStateMsg fileId) = false →
      (waitPollLoop getF fileId i fuel).1 = WaitResult.timedOutError) := by
  refine ⟨⟨rfl, rfl, by decide, by decide, by decide, by decide⟩,
    pollFileLoop_count_le getF nm fuel i,
    waitPollLoop_count_le getF fileId fuel i,
    fun hall => ⟨pollFileLoop_all_processing getF nm fuel i hall,
      waitPollLoop_all_processing getF fileId fuel i hall⟩,
    fun k hk hpre hf => ?_,
    fun hall hesc => waitPollLoop_stuck_failed getF fileId hesc fuel i hall⟩
  refine ⟨fun ha => ⟨(pollFileLoop_first_sig getF nm f k fuel i hk hpre hf).1 ha,
    waitPollLoop_first_active getF fileId f k fuel i hk hpre hf ha⟩,
    fun hfl => (pollFileLoop_first_sig getF nm f k fuel i hk hpre hf).2 hfl⟩

/-- Witness for C7: with an always-`PROCESSING` oracle the full budget
times out, and with an immediately-`ACTIVE` oracle the wait succeeds on
the first attempt. -/
theorem activation_poll_budget_and_outcomes_witness :
    (pollFileLoop getFAllProcessing "files/abc" 0 MAX_RETRIES).1 =
      Except.error (FetchUploadError.activationTimedOut "files/abc") ∧
    (waitPollLoop getFAllActive "abc123" 0 maxRetriesDefault).1 =
      WaitResult.ok :=
  ⟨((activation_poll_budget_and_outcomes getFAllProcessing "files/abc" "abc123"
      ⟨"files/abc", "uri-abc", "video/mp4", FileState.processing⟩
      MAX_RETRIES 0).2.2.2.1
      (fun j _ => ⟨⟨"files/abc", "uri-abc", "video/mp4", FileState.processing⟩,
        rfl, rfl⟩)).1,
   (((activation_poll_budget_and_outcomes getFAllActive "files/abc" "abc123"
      ⟨"files/abc", "uri-abc", "video/mp4", FileState.active⟩
      maxRetriesDefault 0).2.2.2.2.1 0 (by decide)
      (fun j hj => absurd hj (Nat.not_lt_zero j)) rfl).1 rfl).2⟩

/-- C6 counterexample: in the polling loop of `fetchAndUploadFile` a
transient status-retrieval error (here `"ECONNRESET"`, which contains
neither `'404'` nor `'not found'`) is not retried: the loop aborts after a
single attempt with that error, even though the budget had 19 attempts
left and the very next poll would have reported `ACTIVE`. -/
theorem fetch_poll_aborts_on_transient_error :
    escalatesWaitError "ECONNRESET" = false ∧
    pollFileLoop getFTransient "files/abc" 0 MAX_RETRIES =
      (Except.error (FetchUploadError.getFileThrew "ECONNRESET"), 1) ∧
    (pollFileLoop getFTransient "files/abc" 1 (MAX_RETRIES - 1)).1 =
      Except.ok (⟨"files/abc", "uri-abc", "video/mp4", FileState.active⟩,
        "video/mp4") :=
  ⟨by decide, rfl, rfl⟩

/-- C6 (amended): in `waitForFileActive`'s polling loop a transient
status-retrieval error (message without `'404'`/`'not found'`) is logged
and polling continues within the same attempt budget, while a not-found
error is escalated immediately without further retries; but in
`fetchAndUploadFile`'s polling loop any status-retrieval error immediately
aborts that file's upload. -/
theorem wait_poll_transient_vs_not_found (getF : Nat → GetAttempt)
    (fileId msg : String) (i fuel : Nat) :
    (getF i = GetAttempt.threw msg → escalatesWaitError msg = false →
      waitPollLoop getF fileId i (fuel + 1) =
        ((waitPollLoop getF fileId (i + 1) fuel).1,
         (waitPollLoop getF fileId (i + 1) fuel).2 + 1)) ∧
    (getF i = GetAttempt.threw msg → escalatesWaitError msg = true →
      waitPollLoop getF fileId i (fuel + 1) = (WaitResult.notFoundError, 1)) ∧
    escalatesWaitError msg =
      (jsIncludes msg "404" || jsIncludes msg "not found") ∧
    (getF i = GetAttempt.threw msg →
      pollFileLoop getF fileId i (fuel + 1) =
        (Except.error (FetchUploadError.getFileThrew msg), 1)) := by
  refine ⟨fun h he => ?_, fun h he => ?_, rfl, fun h => ?_⟩
  · simp [waitPollLoop, h, he]
  · simp [waitPollLoop, h, he]
  · simp [pollFileLoop, h]

/-- Witness for the amended C6: a concrete not-found throw escalates on
the first attempt, and a concrete transient throw leaves the loop running
on the remaining budget. -/
theorem wait_poll_transient_vs_not_found_witness :
    waitPollLoop getFNotFound "abc123" 0 (19 + 1) =
      (WaitResult.notFoundError, 1) ∧
    waitPollLoop getFTransient "abc123" 0 (19 + 1) =
      ((waitPollLoop getFTransient "abc123" 1 19).1,
       (waitPollLoop getFTransient "abc123" 1 19).2 + 1) :=
  ⟨(wait_poll_transient_vs_not_found getFNotFound "abc123"
      "Error: File not found (404)" 0 19).2.1 rfl (by decide),
   (wait_poll_transient_vs_not_found getFTransient "abc123"
      "ECONNRESET" 0 19).1 rfl (by decide)⟩
